import Mathlib

/-!
Verification of `scripts/test-coverage-analysis.py` (class `TestCoverageAnalyzer`).

The script is a static test-coverage estimator for Java services: it walks a
source tree and a test tree, extracts class/interface and method names with
regular expressions, computes count-based coverage metrics, detects source
classes with no matching test class, and emits fixed-threshold recommendations.

This file is a shallow embedding of that script:
  * regular-expression scans (`re.findall`) are embedded as explicit
    backtracking matchers over `List Char`, faithful to the three patterns
    of `_extract_classes` / `_extract_methods` for ASCII text (the script
    only ever meets ASCII Java identifiers; Python's unicode-aware `\w`/`\s`
    agree with the ASCII classes used here on such text);
  * `str.replace` is embedded as `pyReplace` (replace every non-overlapping
    occurrence, scanning left to right);
  * Python floats are embedded as `ℚ`; `round(x, 2)` is embedded as `round2`
    (round to 2 decimals; the claims never evaluate it at a tie, where
    Python's bankers rounding on binary floats could differ);
  * the filesystem is embedded as an explicit `FS` value (existing
    directories plus files; a file whose text cannot be read carries `none`);
  * `print` calls are side effects with no influence on any computed value
    and are dropped; the Gradle subprocess (`run_gradle_test_report`) is an
    external collaborator whose result is never read by the analysis
    functions modelled here, so it is likewise omitted.

Recursions that walk a string are given explicit fuel, always called with
fuel larger than the string length; every scanning step consumes at least
one character, so the fuel never runs out on the actual calls.
-/

namespace TestCoverage

/-- ASCII model of Python regex `\w` (`[A-Za-z0-9_]`). -/
def isWordChar (c : Char) : Bool :=
  c.isAlphanum || c = '_'

/-- ASCII model of Python regex `\s` (`[ \t\n\r\x0b\x0c]`). -/
def isSpaceChar (c : Char) : Bool :=
  c = ' ' || c = '\t' || c = '\n' || c = '\r' || c = '\x0b' || c = '\x0c'

/-- Match a literal character sequence; returns the remainder on success. -/
def lit : List Char → List Char → Option (List Char)
  | [], cs => some cs
  | _ :: _, [] => none
  | l :: ls, c :: cs => if c = l then lit ls cs else none

/-- Regex `\s+`: at least one whitespace character, greedy.  Every use in the
three patterns is followed by a non-whitespace requirement, so the greedy
maximal munch needs no backtracking. -/
def ws1 : List Char → Option (List Char)
  | [] => none
  | c :: cs => if isSpaceChar c then some (cs.dropWhile isSpaceChar) else none

/-- Regex `\s*`, greedy; always followed by a non-whitespace requirement. -/
def ws0 (cs : List Char) : List Char :=
  cs.dropWhile isSpaceChar

/-- Regex `(\w+)`: capture a maximal nonempty word-character run.  Every use
is followed by a non-word-character requirement, so maximal munch is exact. -/
def word1 : List Char → Option (String × List Char)
  | [] => none
  | c :: cs =>
    if isWordChar c then some (⟨c :: cs.takeWhile isWordChar⟩, cs.dropWhile isWordChar)
    else none

/-- Core of the class pattern: `class\s+(\w+)`. -/
def matchClassCore (cs : List Char) : Option (String × List Char) := do
  let cs1 ← lit "class".data cs
  let cs2 ← ws1 cs1
  word1 cs2

/-- `(?:abstract\s+)?class\s+(\w+)`: the greedy optional group tries the
`abstract` branch first and falls back to skipping it. -/
def matchAbstractClass (cs : List Char) : Option (String × List Char) :=
  (do
    let cs1 ← lit "abstract".data cs
    let cs2 ← ws1 cs1
    matchClassCore cs2) <|> matchClassCore cs

/-- The class pattern of `_extract_classes`, line 93:
`(?:public\s+)?(?:abstract\s+)?class\s+(\w+)`, anchored at the current
position; returns the captured group and the remainder after the match. -/
def matchClassAt (cs : List Char) : Option (String × List Char) :=
  (do
    let cs1 ← lit "public".data cs
    let cs2 ← ws1 cs1
    matchAbstractClass cs2) <|> matchAbstractClass cs

/-- Core of the interface pattern: `interface\s+(\w+)`. -/
def matchInterfaceCore (cs : List Char) : Option (String × List Char) := do
  let cs1 ← lit "interface".data cs
  let cs2 ← ws1 cs1
  word1 cs2

/-- The interface pattern of `_extract_classes`, line 94:
`(?:public\s+)?interface\s+(\w+)`, anchored at the current position. -/
def matchInterfaceAt (cs : List Char) : Option (String × List Char) :=
  (do
    let cs1 ← lit "public".data cs
    let cs2 ← ws1 cs1
    matchInterfaceCore cs2) <|> matchInterfaceCore cs

/-- Tail of the method pattern: `(\w+)\s*\([^)]*\)\s*\{`.  `[^)]*` is greedy
and followed by the disjoint `)` requirement, so maximal munch is exact. -/
def matchMethodTail (cs : List Char) : Option (String × List Char) := do
  let (nm, cs1) ← word1 cs
  let cs2 := ws0 cs1
  let cs3 ← lit ['('] cs2
  let cs4 := cs3.dropWhile (fun c => c ≠ ')')
  let cs5 ← lit [')'] cs4
  let cs6 := ws0 cs5
  let cs7 ← lit ['\x7b'] cs6
  some (nm, cs7)

/-- `(?:\w+\s+)*` followed by the method tail, with regex backtracking: the
greedy star first tries one more `\w+\s+` iteration and falls back to the
tail at the current position.  Each iteration consumes at least two
characters, so fuel above the list length never runs out. -/
def starThenTail : Nat → List Char → Option (String × List Char)
  | 0, _ => none
  | fuel + 1, cs =>
    match word1 cs with
    | some (_, cs1) =>
      match ws1 cs1 with
      | some cs2 =>
        match starThenTail fuel cs2 with
        | some r => some r
        | none => matchMethodTail cs
      | none => matchMethodTail cs
    | none => matchMethodTail cs

/-- After a matched visibility keyword: `\s+(?:static\s+)?(?:\w+\s+)*` and
the method tail. -/
def matchMethodAfterVis (cs : List Char) : Option (String × List Char) := do
  let cs1 ← ws1 cs
  (do
    let cs2 ← lit "static".data cs1
    let cs3 ← ws1 cs2
    starThenTail (cs3.length + 1) cs3) <|> starThenTail (cs1.length + 1) cs1

/-- The method pattern of `_extract_methods`, line 103:
`(?:public|private|protected)\s+(?:static\s+)?(?:\w+\s+)*(\w+)\s*\([^)]*\)\s*\{`,
anchored at the current position; the alternation is tried left to right. -/
def matchMethodAt (cs : List Char) : Option (String × List Char) :=
  (do
    let cs1 ← lit "public".data cs
    matchMethodAfterVis cs1) <|>
  (do
    let cs1 ← lit "private".data cs
    matchMethodAfterVis cs1) <|>
  (do
    let cs1 ← lit "protected".data cs
    matchMethodAfterVis cs1)

/-- `re.findall` scan: try the anchored pattern at each position, left to
right; on a match record the captured group and continue after the match
(all three patterns consume at least one character), else advance one
character. -/
def findAllAux (matchAt : List Char → Option (String × List Char)) :
    Nat → List Char → List String
  | 0, _ => []
  | _ + 1, [] => []
  | fuel + 1, c :: rest =>
    match matchAt (c :: rest) with
    | some (nm, rem) => nm :: findAllAux matchAt fuel rem
    | none => findAllAux matchAt fuel rest

/-- `re.findall(pattern, content)` for a single-group pattern: the list of
captured groups of the non-overlapping matches, in scan order. -/
def findAll (matchAt : List Char → Option (String × List Char))
    (content : String) : List String :=
  findAllAux matchAt (content.length + 1) content.data

/-- `_extract_classes` (lines 91-99): `re.findall` of the class pattern over
the whole text, then `re.findall` of the interface pattern, concatenated in
that order (`classes + interfaces`). -/
def extract_classes (content : String) : List String :=
  findAll matchClassAt content ++ findAll matchInterfaceAt content

/-- `_extract_methods` (lines 101-104): `re.findall` of the method pattern. -/
def extract_methods (content : String) : List String :=
  findAll matchMethodAt content

/-- Split on a newline character, keeping empty pieces, as Python
`content.split('\n')` does. -/
def splitLines : List Char → List (List Char)
  | [] => [[]]
  | c :: rest =>
    match splitLines rest with
    | [] => [[]]
    | l :: ls => if c = '\n' then [] :: l :: ls else (c :: l) :: ls

/-- Line 81: `len([line for line in content.split('\n') if line.strip()])` —
the number of lines containing at least one non-whitespace character. -/
def lines_of_code (content : String) : Nat :=
  ((splitLines content.data).filter (fun l => l.any (fun c => !(isSpaceChar c)))).length

/-- Python `s.replace(old, new)` on character lists: replace every
non-overlapping occurrence of `old`, scanning left to right.  Only called
with nonempty `old`, so each step consumes at least one character and fuel
above the list length never runs out. -/
def replaceAllAux (old new : List Char) : Nat → List Char → List Char
  | 0, s => s
  | _ + 1, [] => []
  | fuel + 1, c :: rest =>
    if old.isPrefixOf (c :: rest) then
      new ++ replaceAllAux old new fuel ((c :: rest).drop old.length)
    else
      c :: replaceAllAux old new fuel rest

/-- Python `s.replace(old, new)` (the script only calls it with nonempty
`old`; an empty `old` is returned unchanged here). -/
def pyReplace (s old new : String) : String :=
  if old.isEmpty then s else ⟨replaceAllAux old.data new.data s.length s.data⟩

/-- Line 145: the name a test class covers,
`class_name.replace("Test", "").replace("Tests", "")` — every occurrence of
the substring `Test` is deleted (anywhere in the name, not only a suffix),
then every occurrence of `Tests` is deleted from the result.  The second
pass is usually idle, but not always: deleting `Test` can splice a new
`Tests` occurrence together (`TeTeststs` becomes `Tests` after the first
pass, which the second pass then deletes). -/
def coveredName (class_name : String) : String :=
  pyReplace (pyReplace class_name "Test" "") "Tests" ""

/-- One entry of the `_find_java_files` result (the `file_info` dict,
lines 70-76): relative path, full path, extracted class and method names,
and the non-blank line count. -/
structure FileInfo where
  path : String
  full_path : String
  classes : List String
  methods : List String
  lines_of_code : Nat
deriving DecidableEq, Repr

/-- The `coverage_metrics` dict returned by `_calculate_coverage_metrics`
(lines 123-135).  Python floats are embedded as `ℚ`. -/
structure CoverageMetrics where
  total_source_files : Nat
  total_test_files : Nat
  total_source_classes : Nat
  total_test_classes : Nat
  total_source_methods : Nat
  total_test_methods : Nat
  total_source_loc : Nat
  total_test_loc : Nat
  estimated_file_coverage : ℚ
  estimated_class_coverage : ℚ
  test_to_source_ratio : ℚ
deriving DecidableEq, Repr

/-- One entry of the `missing_tests` list (lines 151-155). -/
structure MissingTest where
  source_class : String
  source_file : String
  suggested_test_file : String
deriving DecidableEq, Repr

/-- Python `round(x, 2)` embedded over `ℚ`: round to 2 decimal places.
Ties are rounded up here; Python rounds the nearest binary double to even,
which agrees everywhere the claims evaluate it (no ties arise). -/
def round2 (x : ℚ) : ℚ :=
  ((⌊x * 100 + 1 / 2⌋ : ℤ) : ℚ) / 100

/-- `_calculate_coverage_metrics` (lines 106-135): count fields are sums and
lengths over the two `FileInfo` sequences; each percentage is 0 when its
denominator is 0, else the ratio times 100, rounded to 2 decimals. -/
def calculate_coverage_metrics (source_files test_files : List FileInfo) :
    CoverageMetrics :=
  let total_source_files := source_files.length
  let total_test_files := test_files.length
  let total_source_classes := (source_files.map (fun f => f.classes.length)).sum
  let total_source_methods := (source_files.map (fun f => f.methods.length)).sum
  let total_source_loc := (source_files.map (fun f => f.lines_of_code)).sum
  let total_test_classes := (test_files.map (fun f => f.classes.length)).sum
  let total_test_methods := (test_files.map (fun f => f.methods.length)).sum
  let total_test_loc := (test_files.map (fun f => f.lines_of_code)).sum
  let file_coverage : ℚ :=
    if total_source_files > 0 then (total_test_files : ℚ) / total_source_files * 100 else 0
  let class_coverage : ℚ :=
    if total_source_classes > 0 then (total_test_classes : ℚ) / total_source_classes * 100 else 0
  { total_source_files := total_source_files
    total_test_files := total_test_files
    total_source_classes := total_source_classes
    total_test_classes := total_test_classes
    total_source_methods := total_source_methods
    total_test_methods := total_test_methods
    total_source_loc := total_source_loc
    total_test_loc := total_test_loc
    estimated_file_coverage := round2 file_coverage
    estimated_class_coverage := round2 class_coverage
    test_to_source_ratio :=
      if total_source_loc > 0 then round2 ((total_test_loc : ℚ) / total_source_loc * 100)
      else 0 }

/-- The covered-name collection of `_find_missing_tests` (lines 142-145):
Python builds a `set`, of which only membership is ever consumed, so a list
with the same elements is an equivalent embedding. -/
def testClassNames (test_files : List FileInfo) : List String :=
  (test_files.flatMap (fun tf => tf.classes)).map coveredName

/-- `_find_missing_tests` (lines 137-157): the nested appending loops over
source files and their class names, keeping each occurrence whose name is
not covered. -/
def find_missing_tests (source_files test_files : List FileInfo) :
    List MissingTest :=
  let test_classes := testClassNames test_files
  source_files.foldl
    (fun acc sf =>
      sf.classes.foldl
        (fun acc2 class_name =>
          if class_name ∈ test_classes then acc2
          else acc2 ++ [{ source_class := class_name, source_file := sf.path,
                          suggested_test_file := class_name ++ "Test.java" }])
        acc)
    []

/-- Recommendation emitted when `estimated_file_coverage < 50` (line 165). -/
def recLowFileCoverage : String := "测试文件覆盖率较低，建议增加更多测试文件"

/-- Recommendation emitted when `test_to_source_ratio < 30` (line 168). -/
def recLowRatio : String := "测试代码量相对较少，建议编写更全面的测试用例"

/-- Recommendation emitted when missing tests exist (line 171), with the
count substituted. -/
def recMissing (n : Nat) : String :=
  "发现 " ++ toString n ++ " 个类缺少测试，建议补充相应的测试类"

/-- Recommendation emitted when the test method count is below half the
source method count (line 174). -/
def recFewMethods : String := "测试方法数量相对较少，建议增加更多的测试方法"

/-- `_generate_recommendations` (lines 159-176): four independent
fixed-threshold rules appended in a fixed order.  Rule 4 compares with
Python `total_source_methods * 0.5`; the double `0.5` is exactly 1/2. -/
def generate_recommendations (metrics : CoverageMetrics)
    (missing_tests : List MissingTest) : List String :=
  (if metrics.estimated_file_coverage < 50 then [recLowFileCoverage] else []) ++
  (if metrics.test_to_source_ratio < 30 then [recLowRatio] else []) ++
  (if missing_tests.length > 0 then [recMissing missing_tests.length] else []) ++
  (if (metrics.total_test_methods : ℚ) < (metrics.total_source_methods : ℚ) * (1 / 2)
   then [recFewMethods] else [])

/-- One service's analysis record (the `coverage_data` dict of
`analyze_service_coverage`, lines 28-36; the timestamp and the Gradle
result attached by `generate_comprehensive_report` carry no analysed data
and are omitted). -/
structure ServiceCoverage where
  service_name : String
  source_files : List FileInfo
  test_files : List FileInfo
  coverage_metrics : CoverageMetrics
  missing_tests : List MissingTest
  recommendations : List String
deriving DecidableEq, Repr

/-- The `overall_statistics` dict (lines 263-270). -/
structure OverallStatistics where
  total_services : Nat
  total_source_files : Nat
  total_test_files : Nat
  total_missing_tests : Nat
  overall_file_coverage : ℚ
  unique_recommendations : List String
deriving DecidableEq, Repr

/-- `_calculate_overall_statistics` (lines 246-270) over the `services`
mapping in insertion order.  Every record built by
`analyze_service_coverage` carries `coverage_metrics`, so the guarding
`if "coverage_metrics" in service_data` of line 254 is always taken.
Python's `list(set(...))` has unspecified order; only which strings occur
is meaningful, embedded here as first-occurrence deduplication. -/
def calculate_overall_statistics (services : List (String × ServiceCoverage)) :
    OverallStatistics :=
  let recs := services.map (fun s => s.2)
  let total_source_files : Nat :=
    (recs.map (fun r => r.coverage_metrics.total_source_files)).sum
  let total_test_files : Nat :=
    (recs.map (fun r => r.coverage_metrics.total_test_files)).sum
  let total_missing_tests : Nat := (recs.map (fun r => r.missing_tests.length)).sum
  let all_recommendations := recs.flatMap (fun r => r.recommendations)
  let overall_file_coverage : ℚ :=
    if total_source_files > 0 then (total_test_files : ℚ) / total_source_files * 100
    else 0
  { total_services := services.length
    total_source_files := total_source_files
    total_test_files := total_test_files
    total_missing_tests := total_missing_tests
    overall_file_coverage := round2 overall_file_coverage
    unique_recommendations := all_recommendations.eraseDups }

/-- Abstract filesystem: the directories that exist, and the regular files
with their text.  A file whose text cannot be read (permissions, encoding,
I/O error) carries `none`.  Paths are component lists; list order stands
for traversal order. -/
structure FS where
  dirs : List (List String)
  files : List (List String × Option String)
deriving DecidableEq, Repr

/-- Render a component path the way `str(Path(...))` does. -/
def joinPath (p : List String) : String :=
  String.intercalate "/" p

/-- `str(p.relative_to(base))` for `p` under `base`. -/
def relPath (base p : List String) : String :=
  joinPath (p.drop base.length)

/-- Does the path's final component end in `.java`? -/
def endsWithJava (p : List String) : Bool :=
  match p.getLast? with
  | some s => ".java".data.isSuffixOf s.data
  | none => false

/-- `path.rglob("*.java")` (line 69): every file under `path` whose name
ends in `.java`, in traversal order. -/
def rglobJava (fs : FS) (path : List String) : List (List String × Option String) :=
  fs.files.filter (fun f => path.isPrefixOf f.1 && endsWithJava f.1)

/-- The per-file body of `_find_java_files` (lines 70-87): `file_info` is
created with empty lists and zero count; when the read succeeds the three
fields are filled from the text; when it fails a warning is printed and the
defaults remain.  Either way the entry is appended to the result. -/
def summarizeFile (base : List String) (f : List String × Option String) :
    FileInfo :=
  match f.2 with
  | some content =>
    { path := relPath base f.1, full_path := joinPath f.1,
      classes := extract_classes content, methods := extract_methods content,
      lines_of_code := lines_of_code content }
  | none =>
    { path := relPath base f.1, full_path := joinPath f.1,
      classes := [], methods := [], lines_of_code := 0 }

/-- `_find_java_files` (lines 65-89): one `FileInfo` per discovered file, in
traversal order. -/
def find_java_files (fs : FS) (path : List String) : List FileInfo :=
  (rglobJava fs path).map (summarizeFile path)

/-- `analyze_service_coverage` (lines 24-63): scan both trees (a missing
directory yields the empty list), then metrics, missing tests and
recommendations in data-dependency order.  The timestamp carries no
analysed data and is omitted. -/
def analyze_service_coverage (fs : FS) (service_path : List String)
    (service_name : String) : ServiceCoverage :=
  let src_path := service_path ++ ["src", "main", "java"]
  let test_path := service_path ++ ["src", "test", "java"]
  let source_files := if src_path ∈ fs.dirs then find_java_files fs src_path else []
  let test_files := if test_path ∈ fs.dirs then find_java_files fs test_path else []
  let coverage_metrics := calculate_coverage_metrics source_files test_files
  let missing_tests := find_missing_tests source_files test_files
  { service_name := service_name
    source_files := source_files
    test_files := test_files
    coverage_metrics := coverage_metrics
    missing_tests := missing_tests
    recommendations := generate_recommendations coverage_metrics missing_tests }

/-- `Path.mkdir(exist_ok=True)` with the default `parents=False`: succeed
when the directory exists, create it when its parent exists, and raise
`FileNotFoundError` otherwise. -/
def mkdirExistOk (fs : FS) (p : List String) : Except String FS :=
  if p ∈ fs.dirs then .ok fs
  else if p.dropLast ∈ fs.dirs then .ok ⟨p :: fs.dirs, fs.files⟩
  else .error "FileNotFoundError"

/-- The state `TestCoverageAnalyzer.__init__` leaves behind. -/
structure AnalyzerState where
  project_root : List String
  data_preprocessor_path : List String
  model_trainer_path : List String
  results_dir : List String
  fs : FS
deriving DecidableEq, Repr

/-- `TestCoverageAnalyzer.__init__` (lines 17-22): store the four paths and
create `<project_root>/test-results`; the `mkdir` call raises
`FileNotFoundError` when `project_root` itself does not exist. -/
def analyzerInit (fs : FS) (project_root : List String) :
    Except String AnalyzerState :=
  let results_dir := project_root ++ ["test-results"]
  match mkdirExistOk fs results_dir with
  | .ok fs2 =>
    .ok { project_root := project_root
          data_preprocessor_path := project_root ++ ["java-services", "data-preprocessor"]
          model_trainer_path := project_root ++ ["java-services", "model-trainer"]
          results_dir := results_dir
          fs := fs2 }
  | .error e => .error e

/-- The report of `generate_comprehensive_report` (timestamp omitted). -/
structure CoverageReport where
  project_root : List String
  services : List (String × ServiceCoverage)
  overall_statistics : OverallStatistics
deriving DecidableEq, Repr

/-- `generate_comprehensive_report` (lines 211-244): analyze each of the two
services whose directory exists, then the overall statistics.  The Gradle
test run attached to each record is an external-process result that
`_calculate_overall_statistics` never reads; it is omitted here. -/
def generate_comprehensive_report (a : AnalyzerState) : CoverageReport :=
  let services :=
    (if a.data_preprocessor_path ∈ a.fs.dirs then
      [("data-preprocessor",
        analyze_service_coverage a.fs a.data_preprocessor_path "data-preprocessor")]
     else []) ++
    (if a.model_trainer_path ∈ a.fs.dirs then
      [("model-trainer",
        analyze_service_coverage a.fs a.model_trainer_path "model-trainer")]
     else [])
  { project_root := a.project_root
    services := services
    overall_statistics := calculate_overall_statistics services }

/-- `main` (lines 313-330): the constructor runs before the `try` block, so
an exception it raises is uncaught and the process dies with a traceback;
an exception inside the `try` prints a message and exits with status 1.
Either way the run aborts with no report, embedded as `.error`.
`save_report` and `print_summary` cannot fail in this embedding. -/
def mainRun (fs : FS) (project_root : List String) :
    Except String CoverageReport :=
  match analyzerInit fs project_root with
  | .error e => .error e
  | .ok a => .ok (generate_comprehensive_report a)

/-- Comparator modelled from the spec's words, for the order claims only
(the spec asserts "insertion order = textual order" for the types
sequence): a single left-to-right scan that collects class and interface
declarations together, so captured names appear in the textual order of
their declarations. -/
def extractTypesTextual (content : String) : List String :=
  findAll (fun cs => (matchClassAt cs) <|> (matchInterfaceAt cs)) content

/-- The entry `_find_missing_tests` appends for one uncovered class name
(lines 151-155). -/
def missingEntry (class_name path : String) : MissingTest :=
  { source_class := class_name, source_file := path,
    suggested_test_file := class_name ++ "Test.java" }

/-- A matcher consumes at least one character whenever it matches: the
remainder it returns is strictly shorter than its input.  All three anchored
patterns begin with a nonempty literal, so their matchers shrink; this is
what makes the scan's fuel sufficient. -/
def Shrinking (m : List Char → Option (String × List Char)) : Prop :=
  ∀ cs nm rem, m cs = some (nm, rem) → rem.length < cs.length

end TestCoverage

namespace TestCoverage

theorem round2_zero : round2 0 = 0 := by
  have h : ⌊(0 : ℚ) * 100 + 1 / 2⌋ = 0 := by
    rw [Int.floor_eq_iff]
    constructor <;> norm_num
  rw [round2, h]
  norm_num

theorem round2_fifty : round2 50 = 50 := by
  have h : ⌊(50 : ℚ) * 100 + 1 / 2⌋ = 5000 := by
    rw [Int.floor_eq_iff]
    constructor <;> norm_num
  rw [round2, h]
  norm_num

theorem find_missing_inner_foldl (test_classes : List String) (p : String)
    (cs : List String) (acc : List MissingTest) :
    cs.foldl
      (fun acc2 class_name =>
        if class_name ∈ test_classes then acc2
        else acc2 ++ [missingEntry class_name p])
      acc =
    acc ++ cs.filterMap
      (fun class_name =>
        if class_name ∈ test_classes then none
        else some (missingEntry class_name p)) := by
  induction cs generalizing acc with
  | nil => simp
  | cons c cs ih =>
    by_cases h : c ∈ test_classes <;> simp [h, ih, List.filterMap_cons]

theorem find_missing_tests_eq_flatMap (source_files test_files : List FileInfo) :
    find_missing_tests source_files test_files =
      source_files.flatMap (fun sf =>
        sf.classes.filterMap (fun class_name =>
          if class_name ∈ testClassNames test_files then none
          else some (missingEntry class_name sf.path))) := by
  rw [find_missing_tests]
  generalize testClassNames test_files = tcs
  suffices h : ∀ acc : List MissingTest,
      source_files.foldl
        (fun acc sf =>
          sf.classes.foldl
            (fun acc2 class_name =>
              if class_name ∈ tcs then acc2
              else acc2 ++ [{ source_class := class_name, source_file := sf.path,
                              suggested_test_file := class_name ++ "Test.java" }])
            acc)
        acc =
      acc ++ source_files.flatMap (fun sf =>
        sf.classes.filterMap (fun class_name =>
          if class_name ∈ tcs then none else some (missingEntry class_name sf.path))) by
    simpa using h []
  induction source_files with
  | nil => simp
  | cons sf sfs ih =>
    intro acc
    have hinner := find_missing_inner_foldl tcs sf.path sf.classes acc
    simp only [List.foldl_cons, List.flatMap_cons]
    rw [show (fun acc2 class_name =>
          if class_name ∈ tcs then acc2
          else acc2 ++ [{ source_class := class_name, source_file := sf.path,
                          suggested_test_file := class_name ++ "Test.java" }]) =
        (fun acc2 class_name =>
          if class_name ∈ tcs then acc2
          else acc2 ++ [missingEntry class_name sf.path]) from rfl]
    rw [hinner, ih]
    simp

theorem data_public : "public".data = ['p', 'u', 'b', 'l', 'i', 'c'] := rfl

theorem data_abstract : "abstract".data = ['a', 'b', 's', 't', 'r', 'a', 'c', 't'] := rfl

theorem data_class : "class".data = ['c', 'l', 'a', 's', 's'] := rfl

theorem data_interface : "interface".data = ['i', 'n', 't', 'e', 'r', 'f', 'a', 'c', 'e'] := rfl

theorem data_static : "static".data = ['s', 't', 'a', 't', 'i', 'c'] := rfl

theorem mk_data (l : List Char) : (String.mk l).data = l := rfl

theorem mk_length (l : List Char) : (String.mk l).length = l.length := rfl

theorem takeWhile_append_all (p : Char → Bool) (l₁ l₂ : List Char)
    (h : ∀ c ∈ l₁, p c = true) :
    (l₁ ++ l₂).takeWhile p = l₁ ++ l₂.takeWhile p := by
  induction l₁ with
  | nil => simp
  | cons c l ih =>
    have hc : p c = true := h c (by simp)
    have ih2 := ih (fun x hx => h x (by simp [hx]))
    simp [List.cons_append, List.takeWhile_cons, hc, ih2]

theorem dropWhile_append_all (p : Char → Bool) (l₁ l₂ : List Char)
    (h : ∀ c ∈ l₁, p c = true) :
    (l₁ ++ l₂).dropWhile p = l₂.dropWhile p := by
  induction l₁ with
  | nil => simp
  | cons c l ih =>
    have hc : p c = true := h c (by simp)
    have ih2 := ih (fun x hx => h x (by simp [hx]))
    simp [List.cons_append, List.dropWhile_cons, hc, ih2]

theorem isWordChar_of_upper {c : Char} (h : c.isUpper = true) :
    isWordChar c = true := by
  simp [isWordChar, Char.isAlphanum, Char.isAlpha, h]

theorem isSpaceChar_of_upper {c : Char} (h : c.isUpper = true) :
    isSpaceChar c = false := by
  by_contra hn
  have ht : isSpaceChar c = true := by
    cases hb : isSpaceChar c
    · exact absurd hb hn
    · rfl
  have hd : c = ' ' ∨ c = '\t' ∨ c = '\n' ∨ c = '\r' ∨ c = '\x0b' ∨ c = '\x0c' := by
    simpa [isSpaceChar, or_assoc] using ht
  rcases hd with rfl | rfl | rfl | rfl | rfl | rfl <;> exact absurd h (by decide)

theorem upper_ne_starters {c : Char} (h : c.isUpper = true) :
    c ≠ 'p' ∧ c ≠ 'a' ∧ c ≠ 'c' ∧ c ≠ 'i' ∧ c ≠ 's' := by
  refine ⟨?_, ?_, ?_, ?_, ?_⟩ <;> rintro rfl <;> exact absurd h (by decide)

theorem lit_length : ∀ (pat cs rem : List Char),
    lit pat cs = some rem → rem.length + pat.length = cs.length := by
  intro pat
  induction pat with
  | nil =>
    intro cs rem h
    simp only [lit, Option.some.injEq] at h
    subst h
    simp
  | cons l ls ih =>
    intro cs rem h
    cases cs with
    | nil => simp [lit] at h
    | cons c cs =>
      simp only [lit] at h
      by_cases hc : c = l
      · rw [if_pos hc] at h
        have := ih cs rem h
        simp only [List.length_cons]
        omega
      · rw [if_neg hc] at h
        exact absurd h (by simp)

theorem ws1_lt : ∀ (cs rem : List Char), ws1 cs = some rem → rem.length < cs.length := by
  intro cs rem h
  cases cs with
  | nil => simp [ws1] at h
  | cons c cs =>
    simp only [ws1] at h
    by_cases hc : isSpaceChar c
    · rw [if_pos hc, Option.some.injEq] at h
      subst h
      have hsuf : cs.dropWhile isSpaceChar <:+ cs := List.dropWhile_suffix isSpaceChar
      have := hsuf.length_le
      simp only [List.length_cons]
      omega
    · rw [if_neg hc] at h
      exact absurd h (by simp)

theorem word1_lt : ∀ (cs : List Char) (nm : String) (rem : List Char),
    word1 cs = some (nm, rem) → rem.length < cs.length := by
  intro cs nm rem h
  cases cs with
  | nil => simp [word1] at h
  | cons c cs =>
    simp only [word1] at h
    by_cases hc : isWordChar c
    · rw [if_pos hc, Option.some.injEq] at h
      have hrem : rem = cs.dropWhile isWordChar := congrArg Prod.snd h |>.symm
      subst hrem
      have hsuf : cs.dropWhile isWordChar <:+ cs := List.dropWhile_suffix isWordChar
      have := hsuf.length_le
      simp only [List.length_cons]
      omega
    · rw [if_neg hc] at h
      exact absurd h (by simp)

theorem bind_dest {α β : Type} (x : Option α) (f : α → Option β) (b : β)
    (h : (x >>= f) = some b) : ∃ a, x = some a ∧ f a = some b := by
  cases x with
  | none => exact absurd h (by simp)
  | some a => exact ⟨a, rfl, h⟩

theorem matchClassCore_lt (cs : List Char) (nm : String) (rem : List Char)
    (h : matchClassCore cs = some (nm, rem)) : rem.length < cs.length := by
  unfold matchClassCore at h
  obtain ⟨cs1, h1, h⟩ := bind_dest _ _ _ h
  obtain ⟨cs2, h2, h3⟩ := bind_dest _ _ _ h
  have e1 := lit_length _ _ _ h1
  have e2 := ws1_lt _ _ h2
  have e3 := word1_lt _ _ _ h3
  omega

theorem matchAbstractClass_lt (cs : List Char) (nm : String) (rem : List Char)
    (h : matchAbstractClass cs = some (nm, rem)) : rem.length < cs.length := by
  unfold matchAbstractClass at h
  rcases (Option.orElse_eq_some _ _ _).mp h with h | ⟨_, h⟩
  · obtain ⟨cs1, h1, h⟩ := bind_dest _ _ _ h
    obtain ⟨cs2, h2, h3⟩ := bind_dest _ _ _ h
    have e1 := lit_length _ _ _ h1
    have e2 := ws1_lt _ _ h2
    have e3 := matchClassCore_lt _ _ _ h3
    omega
  · exact matchClassCore_lt _ _ _ h

theorem matchClassAt_shrinking : Shrinking matchClassAt := by
  intro cs nm rem h
  unfold matchClassAt at h
  rcases (Option.orElse_eq_some _ _ _).mp h with h | ⟨_, h⟩
  · obtain ⟨cs1, h1, h⟩ := bind_dest _ _ _ h
    obtain ⟨cs2, h2, h3⟩ := bind_dest _ _ _ h
    have e1 := lit_length _ _ _ h1
    have e2 := ws1_lt _ _ h2
    have e3 := matchAbstractClass_lt _ _ _ h3
    omega
  · exact matchAbstractClass_lt _ _ _ h

theorem matchInterfaceCore_lt (cs : List Char) (nm : String) (rem : List Char)
    (h : matchInterfaceCore cs = some (nm, rem)) : rem.length < cs.length := by
  unfold matchInterfaceCore at h
  obtain ⟨cs1, h1, h⟩ := bind_dest _ _ _ h
  obtain ⟨cs2, h2, h3⟩ := bind_dest _ _ _ h
  have e1 := lit_length _ _ _ h1
  have e2 := ws1_lt _ _ h2
  have e3 := word1_lt _ _ _ h3
  omega

theorem matchInterfaceAt_shrinking : Shrinking matchInterfaceAt := by
  intro cs nm rem h
  unfold matchInterfaceAt at h
  rcases (Option.orElse_eq_some _ _ _).mp h with h | ⟨_, h⟩
  · obtain ⟨cs1, h1, h⟩ := bind_dest _ _ _ h
    obtain ⟨cs2, h2, h3⟩ := bind_dest _ _ _ h
    have e1 := lit_length _ _ _ h1
    have e2 := ws1_lt _ _ h2
    have e3 := matchInterfaceCore_lt _ _ _ h3
    omega
  · exact matchInterfaceCore_lt _ _ _ h

theorem matchClassAt_none_of_upper {c : Char} (cs : List Char)
    (h : c.isUpper = true) : matchClassAt (c :: cs) = none := by
  obtain ⟨hp, ha, hc, _, _⟩ := upper_ne_starters h
  simp [matchClassAt, matchAbstractClass, matchClassCore, data_public,
    data_abstract, data_class, lit, hp, ha, hc]

theorem matchInterfaceAt_none_of_upper {c : Char} (cs : List Char)
    (h : c.isUpper = true) : matchInterfaceAt (c :: cs) = none := by
  obtain ⟨hp, _, _, hi, _⟩ := upper_ne_starters h
  simp [matchInterfaceAt, matchInterfaceCore, data_public, data_interface,
    lit, hp, hi]

theorem findAllAux_nil (m : List Char → Option (String × List Char)) :
    ∀ fuel, findAllAux m fuel [] = [] := by
  intro fuel
  cases fuel <;> simp [findAllAux]

theorem findAllAux_fuel (m : List Char → Option (String × List Char))
    (hm : Shrinking m) :
    ∀ (n : Nat) (cs : List Char) (fuel₁ fuel₂ : Nat), cs.length ≤ n →
      cs.length < fuel₁ → cs.length < fuel₂ →
      findAllAux m fuel₁ cs = findAllAux m fuel₂ cs := by
  intro n
  induction n with
  | zero =>
    intro cs f1 f2 h0 _ _
    have : cs = [] := List.length_eq_zero.mp (Nat.le_zero.mp h0)
    subst this
    rw [findAllAux_nil, findAllAux_nil]
  | succ n ih =>
    intro cs f1 f2 hn h1 h2
    cases cs with
    | nil => rw [findAllAux_nil, findAllAux_nil]
    | cons c rest =>
      cases f1 with
      | zero => simp at h1
      | succ f1 =>
        cases f2 with
        | zero => simp at h2
        | succ f2 =>
          simp only [findAllAux]
          cases hm' : m (c :: rest) with
          | none =>
            have hr : rest.length ≤ n := by
              simp only [List.length_cons] at hn
              omega
            exact ih rest f1 f2 hr (by simp only [List.length_cons] at h1; omega)
              (by simp only [List.length_cons] at h2; omega)
          | some p =>
            obtain ⟨nm, rem⟩ := p
            have hlt := hm _ _ _ hm'
            simp only [List.length_cons] at hlt hn h1 h2
            show nm :: findAllAux m f1 rem = nm :: findAllAux m f2 rem
            have hrec := ih rem f1 f2 (by omega) (by omega) (by omega)
            rw [hrec]

theorem findAll_cons_none (m : List Char → Option (String × List Char))
    (c : Char) (cs : List Char) (h : m (c :: cs) = none) :
    findAllAux m ((c :: cs).length + 1) (c :: cs) =
      findAllAux m (cs.length + 1) cs := by
  simp only [List.length_cons, findAllAux, h]

theorem findAll_cons_some (m : List Char → Option (String × List Char))
    (hm : Shrinking m) (c : Char) (cs : List Char) (nm : String)
    (rem : List Char) (h : m (c :: cs) = some (nm, rem)) :
    findAllAux m ((c :: cs).length + 1) (c :: cs) =
      nm :: findAllAux m (rem.length + 1) rem := by
  simp only [List.length_cons, findAllAux, h]
  have hlt := hm _ _ _ h
  simp only [List.length_cons] at hlt
  exact congrArg _
    (findAllAux_fuel m hm cs.length rem (cs.length + 1) (rem.length + 1)
      (by omega) (by omega) (by omega))

theorem findAll_append_none (m : List Char → Option (String × List Char))
    (l rest : List Char) (h : ∀ i, i < l.length → m (l.drop i ++ rest) = none) :
    findAllAux m ((l ++ rest).length + 1) (l ++ rest) =
      findAllAux m (rest.length + 1) rest := by
  induction l with
  | nil => simp
  | cons c l ih =>
    have h0 : m (c :: (l ++ rest)) = none := by simpa using h 0 (by simp)
    rw [List.cons_append, findAll_cons_none m _ _ h0]
    exact ih (fun i hi => by simpa using h (i + 1) (by simp; omega))

theorem findAll_skip_upper (m : List Char → Option (String × List Char))
    (hup : ∀ (c : Char) (cs : List Char), c.isUpper = true → m (c :: cs) = none)
    (a rest : List Char) (ha : ∀ c ∈ a, c.isUpper = true) :
    findAllAux m ((a ++ rest).length + 1) (a ++ rest) =
      findAllAux m (rest.length + 1) rest := by
  induction a with
  | nil => simp
  | cons c a ih =>
    have h0 : m (c :: (a ++ rest)) = none := hup c _ (ha c (by simp))
    rw [List.cons_append, findAll_cons_none m _ _ h0]
    exact ih (fun x hx => ha x (by simp [hx]))

theorem matchClassAt_at_class (c : Char) (b' rest : List Char)
    (hc : c.isUpper = true) (hb' : ∀ x ∈ b', x.isUpper = true)
    (h1 : rest.takeWhile isWordChar = []) (h2 : rest.dropWhile isWordChar = rest) :
    matchClassAt ('c' :: 'l' :: 'a' :: 's' :: 's' :: ' ' :: (c :: (b' ++ rest))) =
      some (⟨c :: b'⟩, rest) := by
  have hw : ∀ x ∈ b', isWordChar x = true := fun x hx => isWordChar_of_upper (hb' x hx)
  have ht : (b' ++ rest).takeWhile isWordChar = b' := by
    rw [takeWhile_append_all isWordChar b' rest hw, h1, List.append_nil]
  have hd : (b' ++ rest).dropWhile isWordChar = rest := by
    rw [dropWhile_append_all isWordChar b' rest hw, h2]
  have hsp : isSpaceChar ' ' = true := by decide
  simp [matchClassAt, matchAbstractClass, matchClassCore, data_public,
    data_abstract, data_class, lit, ws1, word1, hsp, List.dropWhile_cons,
    isSpaceChar_of_upper hc, isWordChar_of_upper hc, ht, hd]

theorem matchInterfaceAt_at_iface (c : Char) (a' rest : List Char)
    (hc : c.isUpper = true) (ha' : ∀ x ∈ a', x.isUpper = true)
    (h1 : rest.takeWhile isWordChar = []) (h2 : rest.dropWhile isWordChar = rest) :
    matchInterfaceAt
      ('i' :: 'n' :: 't' :: 'e' :: 'r' :: 'f' :: 'a' :: 'c' :: 'e' :: ' ' ::
        (c :: (a' ++ rest))) =
      some (⟨c :: a'⟩, rest) := by
  have hw : ∀ x ∈ a', isWordChar x = true := fun x hx => isWordChar_of_upper (ha' x hx)
  have ht : (a' ++ rest).takeWhile isWordChar = a' := by
    rw [takeWhile_append_all isWordChar a' rest hw, h1, List.append_nil]
  have hd : (a' ++ rest).dropWhile isWordChar = rest := by
    rw [dropWhile_append_all isWordChar a' rest hw, h2]
  have hsp : isSpaceChar ' ' = true := by decide
  simp [matchInterfaceAt, matchInterfaceCore, data_public, data_interface,
    lit, ws1, word1, hsp, List.dropWhile_cons, isSpaceChar_of_upper hc,
    isWordChar_of_upper hc, ht, hd]

theorem matchMethodAt_at_ctor (c : Char) (n' : List Char)
    (hc : c.isUpper = true) (hn' : ∀ x ∈ n', x.isUpper = true) :
    matchMethodAt
      ('p' :: 'u' :: 'b' :: 'l' :: 'i' :: 'c' :: ' ' ::
        (c :: (n' ++ ['(', ')', ' ', '\x7b']))) =
      some (⟨c :: n'⟩, []) := by
  have hw : ∀ x ∈ n', isWordChar x = true := fun x hx => isWordChar_of_upper (hn' x hx)
  have hwp : isWordChar '(' = false := by decide
  have hsp : isSpaceChar ' ' = true := by decide
  have hspp : isSpaceChar '(' = false := by decide
  have hspb : isSpaceChar '\x7b' = false := by decide
  have ht : (n' ++ ['(', ')', ' ', '\x7b']).takeWhile isWordChar = n' := by
    rw [takeWhile_append_all isWordChar n' _ hw]
    simp [List.takeWhile_cons, hwp]
  have hd : (n' ++ ['(', ')', ' ', '\x7b']).dropWhile isWordChar =
      ['(', ')', ' ', '\x7b'] := by
    rw [dropWhile_append_all isWordChar n' _ hw]
    simp [List.dropWhile_cons, hwp]
  have hs5 := (upper_ne_starters hc).2.2.2.2
  simp [matchMethodAt, matchMethodAfterVis, matchMethodTail, starThenTail,
    data_public, data_static, lit, ws1, ws0, word1, hsp, hspp, hspb,
    List.dropWhile_cons, isSpaceChar_of_upper hc, isWordChar_of_upper hc,
    ht, hd, hs5]

theorem scanClassPrefixIface (rest : List Char) :
    findAllAux matchClassAt
      (('i' :: 'n' :: 't' :: 'e' :: 'r' :: 'f' :: 'a' :: 'c' :: 'e' :: ' ' :: rest).length + 1)
      ('i' :: 'n' :: 't' :: 'e' :: 'r' :: 'f' :: 'a' :: 'c' :: 'e' :: ' ' :: rest) =
      findAllAux matchClassAt (rest.length + 1) rest := by
  show findAllAux matchClassAt
    ((['i', 'n', 't', 'e', 'r', 'f', 'a', 'c', 'e', ' '] ++ rest).length + 1)
    (['i', 'n', 't', 'e', 'r', 'f', 'a', 'c', 'e', ' '] ++ rest) =
    findAllAux matchClassAt (rest.length + 1) rest
  refine findAll_append_none matchClassAt _ rest ?_
  intro i hi
  simp only [List.length_cons, List.length_nil] at hi
  interval_cases i <;>
    simp [matchClassAt, matchAbstractClass, matchClassCore, data_public,
      data_abstract, data_class, lit]

theorem scanClassMid (rest : List Char) :
    findAllAux matchClassAt
      ((' ' :: '\x7b' :: ' ' :: '\x7d' :: ' ' :: rest).length + 1)
      (' ' :: '\x7b' :: ' ' :: '\x7d' :: ' ' :: rest) =
      findAllAux matchClassAt (rest.length + 1) rest := by
  show findAllAux matchClassAt
    (([' ', '\x7b', ' ', '\x7d', ' '] ++ rest).length + 1)
    ([' ', '\x7b', ' ', '\x7d', ' '] ++ rest) =
    findAllAux matchClassAt (rest.length + 1) rest
  refine findAll_append_none matchClassAt _ rest ?_
  intro i hi
  simp only [List.length_cons, List.length_nil] at hi
  interval_cases i <;>
    simp [matchClassAt, matchAbstractClass, matchClassCore, data_public,
      data_abstract, data_class, lit]

theorem scanClassEnd :
    findAllAux matchClassAt (([' ', '\x7b', ' ', '\x7d'] : List Char).length + 1)
      [' ', '\x7b', ' ', '\x7d'] = [] := by
  show findAllAux matchClassAt
    ((([' ', '\x7b', ' ', '\x7d'] : List Char) ++ []).length + 1)
    (([' ', '\x7b', ' ', '\x7d'] : List Char) ++ [])  = []
  rw [findAll_append_none matchClassAt _ []]
  · exact findAllAux_nil _ _
  · intro i hi
    simp only [List.length_cons, List.length_nil] at hi
    interval_cases i <;>
      simp [matchClassAt, matchAbstractClass, matchClassCore, data_public,
        data_abstract, data_class, lit]

theorem scanIfaceMid (rest : List Char) :
    findAllAux matchInterfaceAt
      ((' ' :: '\x7b' :: ' ' :: '\x7d' :: ' ' :: 'c' :: 'l' :: 'a' :: 's' :: 's' :: ' ' :: rest).length + 1)
      (' ' :: '\x7b' :: ' ' :: '\x7d' :: ' ' :: 'c' :: 'l' :: 'a' :: 's' :: 's' :: ' ' :: rest) =
      findAllAux matchInterfaceAt (rest.length + 1) rest := by
  show findAllAux matchInterfaceAt
    (([' ', '\x7b', ' ', '\x7d', ' ', 'c', 'l', 'a', 's', 's', ' '] ++ rest).length + 1)
    ([' ', '\x7b', ' ', '\x7d', ' ', 'c', 'l', 'a', 's', 's', ' '] ++ rest) =
    findAllAux matchInterfaceAt (rest.length + 1) rest
  refine findAll_append_none matchInterfaceAt _ rest ?_
  intro i hi
  simp only [List.length_cons, List.length_nil] at hi
  interval_cases i <;>
    simp [matchInterfaceAt, matchInterfaceCore, data_public, data_interface, lit]

theorem scanIfaceEnd :
    findAllAux matchInterfaceAt (([' ', '\x7b', ' ', '\x7d'] : List Char).length + 1)
      [' ', '\x7b', ' ', '\x7d'] = [] := by
  show findAllAux matchInterfaceAt
    ((([' ', '\x7b', ' ', '\x7d'] : List Char) ++ []).length + 1)
    (([' ', '\x7b', ' ', '\x7d'] : List Char) ++ [])  = []
  rw [findAll_append_none matchInterfaceAt _ []]
  · exact findAllAux_nil _ _
  · intro i hi
    simp only [List.length_cons, List.length_nil] at hi
    interval_cases i <;>
      simp [matchInterfaceAt, matchInterfaceCore, data_public, data_interface, lit]

/-- Claim C1 counterexample: a source type `Bar` with a test type `BarTests`.
The code strips every occurrence of the substring `Test` first (line 145),
turning `BarTests` into `Bars`, so the covered set does not contain `Bar`
and `Bar` DOES appear in the missing-tests list — refuting the claim's
consequence "for every source type Bar with a test type BarTests, Bar does
not appear in the missing-tests list". -/
theorem claim_C1_counterexample :
    coveredName "BarTests" = "Bars" ∧
    find_missing_tests
      [{ path := "Bar.java", full_path := "src/Bar.java", classes := ["Bar"],
         methods := [], lines_of_code := 3 }]
      [{ path := "BarTests.java", full_path := "test/BarTests.java",
         classes := ["BarTests"], methods := [], lines_of_code := 3 }] =
      [{ source_class := "Bar", source_file := "Bar.java",
         suggested_test_file := "BarTest.java" }] := by
  decide

/-- Claim C1 (amended): the covered-name set is built by deleting every
occurrence of the substring `Test` from each test-tree type name, then
every occurrence of `Tests` from the result — not by stripping a trailing
suffix.  Consequently a source type `Foo` with test type `FooTest` is not
missing, but a source type `Bar` with test type `BarTests` IS missing
(its test name is covered as `Bars`), and the deletion also fires on
non-suffix occurrences (`MyTestHelper` covers `MyHelper`).  The second
deletion pass is not always idle: the first pass can splice a new `Tests`
occurrence together, as for `TeTeststs`, where deleting `Test` leaves
exactly `Tests` and the second pass then deletes it, covering the empty
name. -/
theorem claim_C1_amended :
    coveredName "FooTest" = "Foo" ∧
    coveredName "BarTests" = "Bars" ∧
    coveredName "MyTestHelper" = "MyHelper" ∧
    pyReplace "TeTeststs" "Test" "" = "Tests" ∧
    coveredName "TeTeststs" = "" ∧
    find_missing_tests
      [{ path := "Foo.java", full_path := "src/Foo.java", classes := ["Foo"],
         methods := [], lines_of_code := 3 }]
      [{ path := "FooTest.java", full_path := "test/FooTest.java",
         classes := ["FooTest"], methods := [], lines_of_code := 3 }] = [] ∧
    find_missing_tests
      [{ path := "Bar.java", full_path := "src/Bar.java", classes := ["Bar"],
         methods := [], lines_of_code := 3 }]
      [{ path := "BarTests.java", full_path := "test/BarTests.java",
         classes := ["BarTests"], methods := [], lines_of_code := 3 }] =
      [{ source_class := "Bar", source_file := "Bar.java",
         suggested_test_file := "BarTest.java" }] := by
  refine ⟨by decide, by decide, by decide, by decide, by decide, by decide, by decide⟩

/-- Claim C2 counterexample: a scan of a directory holding one unreadable
file.  The `append` of line 87 sits outside the `try`, so the file is NOT
excluded from the result sequence: it yields an entry (with empty analysis
fields) and contributes 1 to the source-file count. -/
theorem claim_C2_counterexample :
    find_java_files ⟨[["r", "src"]], [(["r", "src", "A.java"], none)]⟩ ["r", "src"] =
      [{ path := "A.java", full_path := "r/src/A.java", classes := [],
         methods := [], lines_of_code := 0 }] ∧
    (calculate_coverage_metrics
      (find_java_files ⟨[["r", "src"]], [(["r", "src", "A.java"], none)]⟩ ["r", "src"])
      []).total_source_files = 1 := by
  constructor
  · decide
  · decide

/-- Claim C2 (amended): a file whose text cannot be read is warned about and
INCLUDED in the scan's result with empty type and method lists and zero
line count, so it contributes 1 to the file count but nothing to any type,
method, or line count; all other files of the same scan are unaffected
(each entry is a function of its own file alone). -/
theorem claim_C2_amended :
    (∀ (fs : FS) (path : List String),
      (find_java_files fs path).length = (rglobJava fs path).length) ∧
    (∀ (fs : FS) (path : List String) (f : List String × Option String),
      f ∈ rglobJava fs path → f.2 = none →
        summarizeFile path f ∈ find_java_files fs path ∧
        (summarizeFile path f).classes = [] ∧
        (summarizeFile path f).methods = [] ∧
        (summarizeFile path f).lines_of_code = 0) ∧
    (∀ (pre post test_files : List FileInfo) (p fp : String),
      (calculate_coverage_metrics
        (pre ++ { path := p, full_path := fp, classes := [], methods := [],
                  lines_of_code := 0 } :: post) test_files).total_source_files =
        (calculate_coverage_metrics (pre ++ post) test_files).total_source_files + 1 ∧
      (calculate_coverage_metrics
        (pre ++ { path := p, full_path := fp, classes := [], methods := [],
                  lines_of_code := 0 } :: post) test_files).total_source_classes =
        (calculate_coverage_metrics (pre ++ post) test_files).total_source_classes ∧
      (calculate_coverage_metrics
        (pre ++ { path := p, full_path := fp, classes := [], methods := [],
                  lines_of_code := 0 } :: post) test_files).total_source_methods =
        (calculate_coverage_metrics (pre ++ post) test_files).total_source_methods ∧
      (calculate_coverage_metrics
        (pre ++ { path := p, full_path := fp, classes := [], methods := [],
                  lines_of_code := 0 } :: post) test_files).total_source_loc =
        (calculate_coverage_metrics (pre ++ post) test_files).total_source_loc) := by
  refine ⟨fun fs path => ?_, fun fs path f hf hnone => ?_, fun pre post tst p fp => ?_⟩
  · simp [find_java_files]
  · refine ⟨List.mem_map_of_mem _ hf, ?_, ?_, ?_⟩ <;> simp [summarizeFile, hnone]
  · refine ⟨?_, ?_, ?_, ?_⟩ <;>
      simp [calculate_coverage_metrics, List.map_append, List.sum_append]
    omega

/-- Claim C3 counterexample: running on a project root that does not exist.
`__init__` calls `mkdir(exist_ok=True)` on `<root>/test-results` without
`parents=True` (line 22); with the root missing this raises
`FileNotFoundError`, and the constructor call sits before `main`'s `try`
block (line 319), so the run crashes with no report — refuting "produces an
empty but well-formed report and does not crash". -/
theorem claim_C3_counterexample :
    mainRun ⟨[], []⟩ ["AI-Demo"] = .error "FileNotFoundError" := by
  rfl

/-- Claim C3 (amended): on a project root that does not exist (and whose
`test-results` subdirectory does not pre-exist either) the run aborts with
`FileNotFoundError` from the constructor's `mkdir`, producing no report.
The empty-but-well-formed report (zero services, zero files, zero
recommendations) arises only when the root exists but holds no service
directories. -/
theorem claim_C3_amended :
    (∀ (fs : FS) (root : List String),
      root ++ ["test-results"] ∉ fs.dirs → root ∉ fs.dirs →
        mainRun fs root = .error "FileNotFoundError") ∧
    mainRun ⟨[["AI-Demo"]], []⟩ ["AI-Demo"] =
      .ok { project_root := ["AI-Demo"], services := [],
            overall_statistics :=
              { total_services := 0, total_source_files := 0,
                total_test_files := 0, total_missing_tests := 0,
                overall_file_coverage := 0, unique_recommendations := [] } } := by
  constructor
  · intro fs root h1 h2
    have hdrop : (root ++ ["test-results"]).dropLast = root := by
      simp
    simp [mainRun, analyzerInit, mkdirExistOk, hdrop, h1, h2]
  · simp [mainRun, analyzerInit, mkdirExistOk, generate_comprehensive_report,
      calculate_overall_statistics, round2_zero]
    rfl

/-- Claim C4 counterexample: a file declaring an interface before a class.
`_extract_classes` returns `classes + interfaces` (line 99), so the class
name precedes the interface name in the types sequence even though the
interface declaration comes first in the text — refuting "insertion order
equals textual order".  The textual order is witnessed by the spec-modelled
single-scan comparator. -/
theorem claim_C4_counterexample :
    extract_classes "interface A \x7b \x7d\nclass B \x7b \x7d\n" = ["B", "A"] ∧
    extractTypesTextual "interface A \x7b \x7d\nclass B \x7b \x7d\n" = ["A", "B"] ∧
    extract_classes "interface A \x7b \x7d\nclass B \x7b \x7d\n" ≠
      extractTypesTextual "interface A \x7b \x7d\nclass B \x7b \x7d\n" := by
  refine ⟨by decide, by decide, by decide⟩

/-- Claim C4 (amended): the types sequence lists all declared class names in
textual order of the class declarations, followed by all declared interface
names in textual order of the interface declarations (two separate
left-to-right scans, concatenated; duplicates allowed).  The middle
conjunct proves it parametrically: for ANY uppercase identifiers `a`, `b`,
the file text `interface a { } class b { }` yields the sequence `[b, a]` —
the class name first although the interface is declared first.  The last
conjunct shows a class-interface-class file yielding both class occurrences
before the interface name. -/
theorem claim_C4_amended :
    (∀ content : String,
      extract_classes content =
        findAll matchClassAt content ++ findAll matchInterfaceAt content) ∧
    (∀ a b : List Char, a ≠ [] → b ≠ [] →
      (∀ c ∈ a, c.isUpper = true) → (∀ c ∈ b, c.isUpper = true) →
      extract_classes
        ⟨"interface ".data ++
          (a ++ (" \x7b \x7d ".data ++ ("class ".data ++ (b ++ " \x7b \x7d".data))))⟩ =
        [String.mk b, String.mk a]) ∧
    extract_classes "public class B \x7b \x7d\ninterface A \x7b \x7d\nclass B \x7b \x7d\n" =
      ["B", "B", "A"] := by
  refine ⟨fun _ => rfl, ?_, by decide⟩
  intro a b hna hnb ha hb
  obtain ⟨ca, a', rfl⟩ := List.exists_cons_of_ne_nil hna
  obtain ⟨cb, b', rfl⟩ := List.exists_cons_of_ne_nil hnb
  have hCa : ca.isUpper = true := ha ca (by simp)
  have hA : ∀ x ∈ a', x.isUpper = true := fun x hx => ha x (by simp [hx])
  have hCb : cb.isUpper = true := hb cb (by simp)
  have hB : ∀ x ∈ b', x.isUpper = true := fun x hx => hb x (by simp [hx])
  have hwsp : isWordChar ' ' = false := by decide
  have e0 : extract_classes
      ⟨"interface ".data ++
        ((ca :: a') ++
          (" \x7b \x7d ".data ++ ("class ".data ++ ((cb :: b') ++ " \x7b \x7d".data))))⟩ =
      findAllAux matchClassAt
        (('i' :: 'n' :: 't' :: 'e' :: 'r' :: 'f' :: 'a' :: 'c' :: 'e' :: ' ' ::
          (ca :: (a' ++
            (' ' :: '\x7b' :: ' ' :: '\x7d' :: ' ' ::
              ('c' :: 'l' :: 'a' :: 's' :: 's' :: ' ' ::
                (cb :: (b' ++ [' ', '\x7b', ' ', '\x7d']))))))).length + 1)
        ('i' :: 'n' :: 't' :: 'e' :: 'r' :: 'f' :: 'a' :: 'c' :: 'e' :: ' ' ::
          (ca :: (a' ++
            (' ' :: '\x7b' :: ' ' :: '\x7d' :: ' ' ::
              ('c' :: 'l' :: 'a' :: 's' :: 's' :: ' ' ::
                (cb :: (b' ++ [' ', '\x7b', ' ', '\x7d'])))))))  ++
      findAllAux matchInterfaceAt
        (('i' :: 'n' :: 't' :: 'e' :: 'r' :: 'f' :: 'a' :: 'c' :: 'e' :: ' ' ::
          (ca :: (a' ++
            (' ' :: '\x7b' :: ' ' :: '\x7d' :: ' ' ::
              ('c' :: 'l' :: 'a' :: 's' :: 's' :: ' ' ::
                (cb :: (b' ++ [' ', '\x7b', ' ', '\x7d']))))))).length + 1)
        ('i' :: 'n' :: 't' :: 'e' :: 'r' :: 'f' :: 'a' :: 'c' :: 'e' :: ' ' ::
          (ca :: (a' ++
            (' ' :: '\x7b' :: ' ' :: '\x7d' :: ' ' ::
              ('c' :: 'l' :: 'a' :: 's' :: 's' :: ' ' ::
                (cb :: (b' ++ [' ', '\x7b', ' ', '\x7d']))))))) := rfl
  rw [e0]
  rw [scanClassPrefixIface]
  rw [findAll_cons_none matchClassAt ca _ (matchClassAt_none_of_upper _ hCa)]
  rw [findAll_skip_upper matchClassAt
    (fun c cs hc => matchClassAt_none_of_upper cs hc) a' _ hA]
  rw [scanClassMid]
  rw [findAll_cons_some matchClassAt matchClassAt_shrinking 'c' _ _ _
    (matchClassAt_at_class cb b' [' ', '\x7b', ' ', '\x7d'] hCb hB (by decide) (by decide))]
  rw [scanClassEnd]
  rw [findAll_cons_some matchInterfaceAt matchInterfaceAt_shrinking 'i' _ _ _
    (matchInterfaceAt_at_iface ca a'
      (' ' :: '\x7b' :: ' ' :: '\x7d' :: ' ' ::
        ('c' :: 'l' :: 'a' :: 's' :: 's' :: ' ' ::
          (cb :: (b' ++ [' ', '\x7b', ' ', '\x7d'])))) hCa hA
      (by simp [List.takeWhile_cons, hwsp]) (by simp [List.dropWhile_cons, hwsp]))]
  rw [scanIfaceMid]
  rw [findAll_cons_none matchInterfaceAt cb _ (matchInterfaceAt_none_of_upper _ hCb)]
  rw [findAll_skip_upper matchInterfaceAt
    (fun c cs hc => matchInterfaceAt_none_of_upper cs hc) b' _ hB]
  rw [scanIfaceEnd]
  rfl

/-- Claim C5 (confirmed): each of the three percentage fields of the metrics
record is exactly 0 when its denominator (source file count, source class
count, source line count) is 0, and otherwise is numerator over denominator
times 100 rounded to 2 decimal places.  The functions are total, so no
input yields an error or an undefined value. -/
theorem claim_C5 (source_files test_files : List FileInfo) :
    ((calculate_coverage_metrics source_files test_files).estimated_file_coverage =
      if source_files.length = 0 then 0
      else round2 ((test_files.length : ℚ) / (source_files.length : ℚ) * 100)) ∧
    ((calculate_coverage_metrics source_files test_files).estimated_class_coverage =
      if ((source_files.map (fun f => f.classes.length)).sum : Nat) = 0 then 0
      else round2 (((test_files.map (fun f => f.classes.length)).sum : ℚ) /
        ((source_files.map (fun f => f.classes.length)).sum : ℚ) * 100)) ∧
    ((calculate_coverage_metrics source_files test_files).test_to_source_ratio =
      if ((source_files.map (fun f => f.lines_of_code)).sum : Nat) = 0 then 0
      else round2 (((test_files.map (fun f => f.lines_of_code)).sum : ℚ) /
        ((source_files.map (fun f => f.lines_of_code)).sum : ℚ) * 100)) ∧
    (calculate_coverage_metrics source_files test_files).total_source_files =
      source_files.length ∧
    (calculate_coverage_metrics source_files test_files).total_source_classes =
      (source_files.map (fun f => f.classes.length)).sum ∧
    (calculate_coverage_metrics source_files test_files).total_source_loc =
      (source_files.map (fun f => f.lines_of_code)).sum := by
  refine ⟨?_, ?_, ?_, rfl, rfl, rfl⟩
  · by_cases h : source_files.length = 0 <;>
      simp [calculate_coverage_metrics, h, Nat.pos_iff_ne_zero, round2_zero,
        Function.comp_def]
  · by_cases h : (source_files.map (fun f => f.classes.length)).sum = 0 <;>
      simp [calculate_coverage_metrics, h, Nat.pos_iff_ne_zero, round2_zero,
        Function.comp_def]
  · by_cases h : (source_files.map (fun f => f.lines_of_code)).sum = 0 <;>
      simp [calculate_coverage_metrics, h, Nat.pos_iff_ne_zero, round2_zero,
        Function.comp_def]

/-- Claim C6 counterexample: one source file declaring `interface A` before
`class B`, with no tests.  The missing-test entries follow the extracted
types sequence (classes first, then interfaces), so `B`'s entry precedes
`A`'s even though `A` is declared first — refuting "ordered ... by
declaration order within a file" (the textual order is witnessed by the
spec-modelled comparator). -/
theorem claim_C6_counterexample :
    find_missing_tests
      [summarizeFile ["r", "src"]
        (["r", "src", "AB.java"], some "interface A \x7b \x7d\nclass B \x7b \x7d\n")] [] =
      [{ source_class := "B", source_file := "AB.java", suggested_test_file := "BTest.java" },
       { source_class := "A", source_file := "AB.java", suggested_test_file := "ATest.java" }] ∧
    extractTypesTextual "interface A \x7b \x7d\nclass B \x7b \x7d\n" = ["A", "B"] ∧
    (find_missing_tests
      [summarizeFile ["r", "src"]
        (["r", "src", "AB.java"], some "interface A \x7b \x7d\nclass B \x7b \x7d\n")] []).map
        (fun e => e.source_class) ≠
      extractTypesTextual "interface A \x7b \x7d\nclass B \x7b \x7d\n" := by
  refine ⟨by decide, by decide, by decide⟩

/-- Claim C6 (amended): an uncovered source type yields one entry per
declaration occurrence (no deduplication within or across files), with
suggested test file name the type name concatenated with `Test.java`;
entries are ordered by source-file discovery order and, within a file, by
the order of the extracted types sequence (all class declarations in
textual order, then all interface declarations in textual order). -/
theorem claim_C6_amended :
    (∀ (source_files test_files : List FileInfo),
      find_missing_tests source_files test_files =
        source_files.flatMap (fun sf =>
          sf.classes.filterMap (fun class_name =>
            if class_name ∈ testClassNames test_files then none
            else some (missingEntry class_name sf.path)))) ∧
    find_missing_tests
      [{ path := "X.java", full_path := "s/X.java", classes := ["Dup", "Dup"],
         methods := [], lines_of_code := 1 },
       { path := "Y.java", full_path := "s/Y.java", classes := ["Dup"],
         methods := [], lines_of_code := 1 }] [] =
      [missingEntry "Dup" "X.java", missingEntry "Dup" "X.java",
       missingEntry "Dup" "Y.java"] := by
  exact ⟨find_missing_tests_eq_flatMap, by decide⟩

/-- Claim C7 (confirmed): the four fixed-threshold rules are evaluated
independently in a fixed order, each emitting its recommendation exactly
when its condition holds; on the claim's inputs (file coverage 40, ratio
60, no missing tests, 10 test methods vs 10 source methods) exactly the
low-file-coverage recommendation is produced. -/
theorem claim_C7 :
    (∀ (m : CoverageMetrics) (mt : List MissingTest) (r : String),
      r ∈ generate_recommendations m mt ↔
        ((r = recLowFileCoverage ∧ m.estimated_file_coverage < 50) ∨
         (r = recLowRatio ∧ m.test_to_source_ratio < 30) ∨
         (r = recMissing mt.length ∧ 0 < mt.length) ∨
         (r = recFewMethods ∧
           (m.total_test_methods : ℚ) < (m.total_source_methods : ℚ) * (1 / 2)))) ∧
    generate_recommendations
      { total_source_files := 10, total_test_files := 4, total_source_classes := 0,
        total_test_classes := 0, total_source_methods := 10, total_test_methods := 10,
        total_source_loc := 0, total_test_loc := 0, estimated_file_coverage := 40,
        estimated_class_coverage := 0, test_to_source_ratio := 60 } [] =
      [recLowFileCoverage] := by
  constructor
  · intro m mt r
    by_cases h1 : m.estimated_file_coverage < 50 <;>
    by_cases h2 : m.test_to_source_ratio < 30 <;>
    by_cases h3 : 0 < mt.length <;>
    by_cases h4 : (m.total_test_methods : ℚ) < (m.total_source_methods : ℚ) * 2⁻¹ <;>
    simp [generate_recommendations, h1, h2, h3, h4, or_assoc]
  · norm_num [generate_recommendations]

/-- Claim C8 (confirmed): the overall statistics sum the per-service integer
totals across the records and recompute the overall file coverage from the
summed totals (0 when the summed source-file total is 0); on two services
with (4, 2) and (6, 3) source/test files the totals are 10 and 5 and the
overall coverage is exactly 50. -/
theorem claim_C8 :
    (∀ services : List (String × ServiceCoverage),
      (calculate_overall_statistics services).total_services = services.length ∧
      (calculate_overall_statistics services).total_source_files =
        (services.map (fun s => s.2.coverage_metrics.total_source_files)).sum ∧
      (calculate_overall_statistics services).total_test_files =
        (services.map (fun s => s.2.coverage_metrics.total_test_files)).sum ∧
      (calculate_overall_statistics services).total_missing_tests =
        (services.map (fun s => s.2.missing_tests.length)).sum ∧
      (calculate_overall_statistics services).overall_file_coverage =
        (if (services.map (fun s => s.2.coverage_metrics.total_source_files)).sum = 0 then 0
         else round2
           (((services.map (fun s => s.2.coverage_metrics.total_test_files)).sum : ℚ) /
             ((services.map (fun s => s.2.coverage_metrics.total_source_files)).sum : ℚ) *
             100))) ∧
    calculate_overall_statistics
      [("a", ⟨"a", [], [], ⟨4, 2, 0, 0, 0, 0, 0, 0, 0, 0, 0⟩, [], []⟩),
       ("b", ⟨"b", [], [], ⟨6, 3, 0, 0, 0, 0, 0, 0, 0, 0, 0⟩, [], []⟩)] =
      { total_services := 2, total_source_files := 10, total_test_files := 5,
        total_missing_tests := 0, overall_file_coverage := 50,
        unique_recommendations := [] } := by
  constructor
  · intro services
    refine ⟨rfl, ?_, ?_, ?_, ?_⟩ <;>
      by_cases h : (services.map (fun s => s.2.coverage_metrics.total_source_files)).sum = 0 <;>
      simp [calculate_overall_statistics, List.map_map, h, Nat.pos_iff_ne_zero,
        round2_zero, Function.comp_def]
  · have h50 : ((5 : ℚ) / 10 * 100) = 50 := by norm_num
    simp [calculate_overall_statistics, h50, round2_fifty]
    rfl

/-- Claim C9 (confirmed): type extraction, method extraction and line
counting are deterministic pure functions of the file text, so re-scanning
the same unchanged text — and re-scanning a whole unchanged tree — yields
results identical to the first scan.  In this embedding the scans are pure
functions, so the two applications coincide definitionally; the theorem
records exactly the claim's equation. -/
theorem claim_C9 (content : String) (fs : FS) (path : List String) :
    extract_classes content = extract_classes content ∧
    extract_methods content = extract_methods content ∧
    lines_of_code content = lines_of_code content ∧
    find_java_files fs path = find_java_files fs path :=
  ⟨rfl, rfl, rfl, rfl⟩

/-- Claim C10 counterexample: the claim quantifies over every text
containing a visibility keyword + identifier + argument list + brace
fragment, but an earlier overlapping match can consume the fragment: in
`private A(public Foo() {` the scan matches `private A(public Foo() {`
first — `[^)]*` swallows `public Foo(` — capturing only `A`, so `Foo` is
not in the extracted method sequence even though the text contains
`public Foo() {`. -/
theorem claim_C10_counterexample :
    "private A(public Foo() \x7b" = "private A(" ++ "public Foo() \x7b" ∧
    extract_methods "public Foo() \x7b" = ["Foo"] ∧
    extract_methods "private A(public Foo() \x7b" = ["A"] ∧
    "Foo" ∉ extract_methods "private A(public Foo() \x7b" := by
  refine ⟨by decide, by decide, by decide, by decide⟩

/-- Claim C10 (amended): the method pattern has no constructor exclusion, so
when the scan reaches such a fragment unconsumed the identifier is captured:
the text `public Foo() {` alone yields methods `[Foo]`, and a class `Calc`
declaring only the constructor `public Calc() { }` yields one extracted
method (`Calc`), inflating the method counts.  Containment in arbitrary
surrounding text does not always yield the identifier, since an earlier
overlapping match may consume the fragment. -/
theorem claim_C10_amended :
    (∀ nm : List Char, nm ≠ [] → (∀ c ∈ nm, c.isUpper = true) →
      extract_methods ⟨"public ".data ++ (nm ++ "() \x7b".data)⟩ = [String.mk nm]) ∧
    extract_methods "public Foo() \x7b" = ["Foo"] ∧
    extract_methods "public class Calc \x7b\n    public Calc() \x7b\n    \x7d\n\x7d\n" =
      ["Calc"] ∧
    extract_classes "public class Calc \x7b\n    public Calc() \x7b\n    \x7d\n\x7d\n" =
      ["Calc"] := by
  refine ⟨?_, by decide, by decide, by decide⟩
  intro nm hn hu
  obtain ⟨cn, n', rfl⟩ := List.exists_cons_of_ne_nil hn
  have hc : cn.isUpper = true := hu cn (by simp)
  have hn' : ∀ x ∈ n', x.isUpper = true := fun x hx => hu x (by simp [hx])
  have e0 : extract_methods ⟨"public ".data ++ ((cn :: n') ++ "() \x7b".data)⟩ =
      findAllAux matchMethodAt
        (('p' :: 'u' :: 'b' :: 'l' :: 'i' :: 'c' :: ' ' ::
          (cn :: (n' ++ ['(', ')', ' ', '\x7b']))).length + 1)
        ('p' :: 'u' :: 'b' :: 'l' :: 'i' :: 'c' :: ' ' ::
          (cn :: (n' ++ ['(', ')', ' ', '\x7b']))) := rfl
  rw [e0]
  have hm := matchMethodAt_at_ctor cn n' hc hn'
  simp only [findAllAux, hm]
end TestCoverage
